import Mathlib

/-!
Shallow embedding of the trade execution core of the CorinEE spot-market
simulator: the BUY-side matching service (trade-bid.service.ts), the worker
pool (worker-pool.service.ts), the asset value validation
(asset/utils/util.ts) and the asset repository, over exact rational
arithmetic.  Monetary and quantity values are rationals; the fallible parts
return Except; storage transactions are an explicit committed/pending pair.
-/

/-- Modelled from the spec: formatQuantity (the helper module trade.helper is
not among the sources; only its callers are) truncates a monetary or
quantity value to at most 8 fractional digits, toward zero. -/
def formatQuantity (v : ℚ) : ℚ :=
  (if 0 ≤ v then ((⌊v * 100000000⌋ : ℤ) : ℚ) else ((⌈v * 100000000⌉ : ℤ) : ℚ)) / 100000000

/-- Modelled from the spec: isMinimumQuantity (from the missing helper module
trade.helper) holds for quantities under the configured dust epsilon of
10 ^ (-8); such quantities are below the minimum-fillable threshold. -/
def isMinimumQuantity (q : ℚ) : Bool := decide (q < 1 / 100000000)

/-- Currency balances of one account row (account.entity fields used by the
trade flow: total KRW, available KRW, and the other currency fields). -/
structure Account where
  KRW : ℚ
  availableKRW : ℚ
  USDT : ℚ
  BTC : ℚ
deriving DecidableEq, Repr

/-- The fields of the bid DTO read by the BUY-side fill path: order id, limit
price, ordered amount, the settlement conversion factor krw, and the name of
the received asset. -/
structure BidDto where
  tradeId : ℕ
  receivedPrice : ℚ
  receivedAmount : ℚ
  krw : ℚ
  typeReceived : String
deriving DecidableEq, Repr

/-- A pending order row of the trade store: id, limit price, remaining
quantity. -/
structure Trade where
  tradeId : ℕ
  price : ℚ
  quantity : ℚ
deriving DecidableEq, Repr

/-- One level of the externally supplied order book snapshot. -/
structure OrderBookEntry where
  ask_price : ℚ
  ask_size : ℚ
deriving DecidableEq, Repr

/-- One executed (or attempted) fill: the snapshot level it came from, the
fill price in settlement terms, and the fill quantity. -/
structure Fill where
  ask_price : ℚ
  price : ℚ
  quantity : ℚ
deriving DecidableEq, Repr

/-- A storage transaction over a state type: committed holds what the store
would show after a rollback, pending holds the uncommitted writes. -/
structure Txn (σ : Type) where
  committed : σ
  pending : σ
deriving DecidableEq, Repr

def Txn.start {σ : Type} (s : σ) : Txn σ := ⟨s, s⟩

def Txn.write {σ : Type} (t : Txn σ) (f : σ → σ) : Txn σ := ⟨t.committed, f t.pending⟩

def Txn.commit {σ : Type} (t : Txn σ) : Txn σ := ⟨t.pending, t.pending⟩

def Txn.rollback {σ : Type} (t : Txn σ) : Txn σ := ⟨t.committed, t.committed⟩

/-- The one hard error class of a fill attempt: a storage step (locked load
or remaining-quantity update) failed inside the transaction. -/
inductive TradeError where
  | storage
deriving DecidableEq, Repr

deriving instance DecidableEq for Except

/-- Modelled from the spec: updateAccountCurrencyWithBid (account.repository
is not among the sources) applies one signed delta to the total balance of
the given currency and one to the available balance, and touches nothing
else. -/
def updateAccountCurrencyWithBid (acct : Account) (totalDelta availDelta : ℚ) : Account :=
  { acct with KRW := acct.KRW + totalDelta, availableKRW := acct.availableKRW + availDelta }

/-- updateAccountBalances of trade-bid.service.ts: after a committed fill it
debits the fill cost from the total balance and refunds the difference
between the reserved (limit) price and the actual fill price into the
available balance. -/
def updateAccountBalances (dto : BidDto) (buy : Fill) (acct : Account) : Account :=
  updateAccountCurrencyWithBid acct
    (-(formatQuantity (buy.price * buy.quantity)))
    (formatQuantity ((dto.receivedPrice - buy.price) * buy.quantity))

/-- One asset holding row with rational fields, as seen by the trade flow. -/
structure AssetQ where
  assetName : String
  price : ℚ
  quantity : ℚ
  availableQuantity : ℚ
deriving DecidableEq, Repr

/-- The repository write that processAssetUpdate eventually performs. -/
inductive AssetRepoCall where
  | update (a : AssetQ)
  | create (name : String) (price quantity : ℚ)
deriving DecidableEq, Repr

/-- processAssetUpdate of trade-bid.service.ts: accumulate the fill into an
existing holding (cumulative cost, quantity, available quantity) or create a
new holding for the received asset. -/
def processAssetUpdate (typeReceived : String) (buy : Fill) (asset? : Option AssetQ) :
    AssetRepoCall :=
  match asset? with
  | some a =>
      .update { a with
        price := formatQuantity (a.price + buy.price * buy.quantity)
        quantity := formatQuantity (a.quantity + buy.quantity)
        availableQuantity := formatQuantity (a.availableQuantity + buy.quantity) }
  | none =>
      .create typeReceived (formatQuantity (buy.price * buy.quantity))
        (formatQuantity buy.quantity)

/-- Everything observable about one call of executeBidTrade: the value it
returns (or the error it throws), the committed order row, the in-memory
account object it mutates, the persisted account row as left by the
non-awaited updateAccountBalances, the asset repository write issued by the
non-awaited processAssetUpdate, the history records fired, the buyData each
of the two reconciliation calls was invoked with, and the unhandled
rejections of the non-awaited calls. -/
structure ExecResult where
  outcome : Except TradeError ℚ
  trade : Option Trade
  account : Account
  persisted : Account
  assetRepoCall : Option AssetRepoCall
  history : List Fill
  assetCall : Option Fill
  balanceCall : Option Fill
  unhandled : List String
deriving DecidableEq, Repr

/-- executeBidTrade of trade-bid.service.ts.  Inputs beyond the DTO and the
snapshot level: acct is the in-memory account object held by the service
loop, persisted is the stored account row, asset? the stored holding for the
received asset, db the stored order row; lockOk and updateOk inject storage
failures of the locked load and of updateTradeData (modelled from the spec:
updateTradeData subtracts the fill quantity from the remaining quantity,
truncated, persists it in the same transaction and returns it); assetOk and
balanceOk are the outcomes of the two reconciliation calls the source does
not await. -/
def executeBidTrade (dto : BidDto) (acct persisted : Account) (asset? : Option AssetQ)
    (order : OrderBookEntry) (db : Option Trade)
    (lockOk updateOk assetOk balanceOk : Bool) : ExecResult :=
  let t := Txn.start db
  if ¬ lockOk then
    -- findTradeWithLock threw: catch rolls the transaction back and rethrows
    { outcome := .error .storage, trade := t.rollback.committed, account := acct,
      persisted := persisted, assetRepoCall := none, history := [],
      assetCall := none, balanceCall := none, unhandled := [] }
  else
    match t.pending with
    | none =>
        -- order vanished: return 0 with no write at all
        { outcome := .ok 0, trade := t.committed, account := acct,
          persisted := persisted, assetRepoCall := none, history := [],
          assetCall := none, balanceCall := none, unhandled := [] }
    | some tradeData =>
        if isMinimumQuantity tradeData.quantity then
          { outcome := .ok 0, trade := t.committed, account := acct,
            persisted := persisted, assetRepoCall := none, history := [],
            assetCall := none, balanceCall := none, unhandled := [] }
        else
          let fillQty := formatQuantity
            (if tradeData.quantity ≥ order.ask_size then order.ask_size else tradeData.quantity)
          if isMinimumQuantity fillQty then
            { outcome := .ok 0, trade := t.committed, account := acct,
              persisted := persisted, assetRepoCall := none, history := [],
              assetCall := none, balanceCall := none, unhandled := [] }
          else
            let fillPrice := formatQuantity (order.ask_price * dto.krw)
            let buy : Fill := ⟨order.ask_price, fillPrice, fillQty⟩
            -- createTradeHistory fires here, not awaited and outside the transaction
            if ¬ updateOk then
              -- updateTradeData threw: roll back the pending write, rethrow
              { outcome := .error .storage,
                trade := ((t.write (fun _ =>
                  some { tradeData with quantity := formatQuantity (tradeData.quantity - fillQty) })).rollback).committed,
                account := acct, persisted := persisted, assetRepoCall := none,
                history := [buy], assetCall := none, balanceCall := none, unhandled := [] }
            else
              let newRemaining := formatQuantity (tradeData.quantity - fillQty)
              let t := (t.write (fun _ => some { tradeData with quantity := newRemaining })).commit
              let acct' : Account := { acct with
                availableKRW := acct.availableKRW +
                  formatQuantity ((dto.receivedPrice - fillPrice) * fillQty),
                KRW := acct.KRW - formatQuantity (fillPrice * fillQty) }
              { outcome := .ok newRemaining, trade := t.committed, account := acct',
                persisted := if balanceOk then updateAccountBalances dto buy persisted else persisted,
                assetRepoCall := if assetOk then some (processAssetUpdate dto.typeReceived buy asset?) else none,
                history := [buy], assetCall := some buy, balanceCall := some buy,
                unhandled := (if assetOk then [] else ["asset"]) ++
                  (if balanceOk then [] else ["balance"]) }

/-- Result of one whole per-order attempt: the outcome of the for loop (ok,
or the rethrown storage error), the committed order row, the in-memory
account, and the history records fired during the attempt. -/
structure AttemptResult where
  outcome : Except TradeError Unit
  trade : Option Trade
  account : Account
  fills : List Fill
deriving DecidableEq, Repr

/-- The for loop of bidTradeService over the snapshot levels.  faults gives,
per level, the (lockOk, updateOk) failure injection for that level, default
(true, true).  The loop breaks on a level priced above the limit, breaks
when the returned remaining quantity is below minimum-fillable, and rethrows
a storage error; the in-memory account object and the committed order row
are threaded across levels, while the non-awaited reconciliation calls are
not observed by the loop (their inputs are fixed, their outputs ignored). -/
def bidLoop (dto : BidDto) (persisted : Account) (asset? : Option AssetQ)
    (faults : List (Bool × Bool)) (db : Option Trade) (acct : Account) :
    List OrderBookEntry → AttemptResult
  | [] => ⟨.ok (), db, acct, []⟩
  | lvl :: rest =>
    if lvl.ask_price > dto.receivedPrice then ⟨.ok (), db, acct, []⟩
    else
      let f := faults.headD (true, true)
      let r := executeBidTrade dto acct persisted asset? lvl db f.1 f.2 true true
      match r.outcome with
      | .error e => ⟨.error e, r.trade, r.account, r.history⟩
      | .ok remaining =>
        if isMinimumQuantity remaining then ⟨.ok (), r.trade, r.account, r.history⟩
        else
          let deeper := bidLoop dto persisted asset? faults.tail r.trade r.account rest
          ⟨deeper.outcome, deeper.trade, deeper.account, r.history ++ deeper.fills⟩

/-- The mutable state seen by bidTradeService: the per-order in-flight guard
map isProcessing, the stored order row, and the account loaded for this
attempt. -/
structure ServiceState where
  guard : ℕ → Bool
  trade : Option Trade
  account : Account

/-- bidTradeService of trade-bid.service.ts: skip when the in-flight guard
for this order id is set; otherwise set it, walk the snapshot levels, and
clear the guard in the finally block, both when the loop returns and when it
throws. -/
def bidTradeService (dto : BidDto) (levels : List OrderBookEntry)
    (persisted : Account) (asset? : Option AssetQ) (faults : List (Bool × Bool))
    (s : ServiceState) : ServiceState × Except TradeError Unit × List Fill :=
  if s.guard dto.tradeId then (s, .ok (), [])
  else
    let r := bidLoop dto persisted asset? faults s.trade s.account levels
    ({ guard := fun i => if i = dto.tradeId then false else s.guard i,
       trade := r.trade, account := r.account }, r.outcome, r.fills)

/-- State touched by order creation: the account row, the pending order
store, and the redis copy of the order. -/
structure CreateState where
  account : Account
  orders : List Trade
  redis : List Trade
deriving DecidableEq, Repr

/-- How the promise returned by createBidTrade settles: rejected with an
error, resolved with a status code, or resolved with undefined because the
surrounding catch block swallowed an error. -/
inductive CreateOutcome where
  | rejected (msg : String)
  | resolved (statusCode : ℕ)
  | resolvedUndefined
deriving DecidableEq, Repr

/-- checkCurrencyBalance of trade-bid.service.ts: the truncated notional is
subtracted from the available balance; a negative remainder is an
insufficient-funds error. -/
def checkCurrencyBalance (dto : BidDto) (acct : Account) : Except String ℚ :=
  let givenAmount := formatQuantity (dto.receivedPrice * dto.receivedAmount)
  let remaining := formatQuantity (acct.availableKRW - givenAmount)
  if remaining < 0 then .error "insufficient balance" else .ok remaining

/-- createBidTrade of trade-bid.service.ts.  The minimum-notional check is
thrown before the try block, so it rejects; everything inside the try runs
in one transaction (modelled from the spec: executeTransaction commits on
success and on failure rolls back and rethrows) that validates the account
(accountExists), checks the balance, reserves the funds as a negative delta
on the available balance only, and inserts the pending order; a thrown error
is then caught by the catch block, logged, and swallowed, so the promise
resolves with undefined. -/
def createBidTrade (dto : BidDto) (accountExists : Bool) (s : CreateState) :
    CreateOutcome × CreateState :=
  if isMinimumQuantity (dto.receivedAmount * dto.receivedPrice) then
    (.rejected "below minimum trade size", s)
  else
    let body : Except String (CreateState × Trade) :=
      if dto.receivedAmount ≤ 0 then .error "amount must be positive"
      else if ¬ accountExists then .error "no such account"
      else
        match checkCurrencyBalance dto s.account with
        | .error e => .error e
        | .ok _ =>
          let acct := { s.account with
            availableKRW := s.account.availableKRW +
              -(formatQuantity (dto.receivedPrice * dto.receivedAmount)) }
          let newTrade : Trade := ⟨s.orders.length, dto.receivedPrice, dto.receivedAmount⟩
          .ok ({ s with account := acct, orders := s.orders ++ [newTrade] }, newTrade)
    match body with
    | .error _ => (.resolvedUndefined, s)
    | .ok (s', tr) => (.resolved 200, { s' with redis := s'.redis ++ [tr] })

/-- Exponent of p in n, structurally on a fuel argument (fuel n is enough,
each step divides n by p ≥ 2). -/
def pexpAux (p : ℕ) : ℕ → ℕ → ℕ
  | 0, _ => 0
  | fuel+1, n => if n % p = 0 ∧ n ≠ 0 ∧ 1 < p then pexpAux p fuel (n / p) + 1 else 0

/-- Exponent of p in n (number of times p divides n). -/
def pexp (p n : ℕ) : ℕ := pexpAux p n n

/-- Number of base-10 digits of n, structurally on a fuel argument. -/
def digitCountAux : ℕ → ℕ → ℕ
  | 0, _ => 1
  | fuel+1, n => if n < 10 then 1 else digitCountAux fuel (n / 10) + 1

/-- Number of base-10 digits of n (1 for n = 0). -/
def digitCount (n : ℕ) : ℕ := digitCountAux n n

/-- Least d such that q times 10 ^ d is an integer, when the denominator of
q divides a power of 10; none otherwise. -/
def fracDigits (q : ℚ) : Option ℕ :=
  let a := pexp 2 q.den
  let b := pexp 5 q.den
  if q.den = 2 ^ a * 5 ^ b then some (max a b) else none

/-- Modelled from ECMAScript Number toString, which the source calls on
every value it validates: for a finite value with a terminating decimal
expansion, the length of the substring after the first dot of the rendered
string, or none when the string has no dot.  Decimal notation is used when
the decimal exponent n satisfies -6 < n and n ≤ 21 and then the fractional
part has fracDigits digits; otherwise exponential notation d.ddd e±X is
used, whose substring after the dot is the mantissa tail plus the exponent
marker.  A value with no terminating decimal expansion is not a binary
double, hence outside the model; the definition fails closed there. -/
def jsDotFracLen (q : ℚ) : Option ℕ :=
  if q = 0 then none
  else
    match fracDigits q with
    | none => some 9
    | some d =>
      let m := q.num.natAbs * (10 ^ d / q.den)
      let tz := pexp 10 m
      let s := m / 10 ^ tz
      let k := digitCount s
      let n : ℤ := (digitCount m : ℤ) - d
      if -6 < n ∧ n ≤ 21 then
        if d = 0 then none else some d
      else if k = 1 then none
      else some ((k - 1) + 2 + digitCount (n - 1).natAbs)

/-- A JavaScript number as the validation layer sees it: NaN, an infinity,
or a finite value (restricted to its exact rational value). -/
inductive JSNum where
  | nan
  | inf (pos : Bool)
  | fin (q : ℚ)
deriving DecidableEq, Repr

/-- ensureMax8Decimals of asset/utils/util.ts: NaN and non-finite values
fail; otherwise the rendered string is split at the first dot and the part
after it may have at most 8 characters; a string with no dot passes. -/
def ensureMax8Decimals (value : JSNum) : Except String Unit :=
  match value with
  | .nan => .error "invalid value"
  | .inf _ => .error "invalid value"
  | .fin q =>
    match jsDotFracLen q with
    | some l => if l > 8 then .error "more than 8 decimal places" else .ok ()
    | none => .ok ()

/-- One stored asset row of the asset repository. -/
structure AssetRecord where
  assetId : ℕ
  assetName : String
  price : JSNum
  quantity : JSNum
  availableQuantity : JSNum
deriving DecidableEq, Repr

/-- createAsset of the asset repository: validate price and quantity, then
save a new row whose availableQuantity equals the quantity, all values
stored exactly as given.  A thrown validation error is re-raised (as an
internal server error) before any write. -/
def createAsset (typeReceived : String) (price quantity : JSNum)
    (store : List AssetRecord) : Except String AssetRecord × List AssetRecord :=
  match ensureMax8Decimals price with
  | .error e => (.error e, store)
  | .ok _ =>
    match ensureMax8Decimals quantity with
    | .error e => (.error e, store)
    | .ok _ =>
      let asset : AssetRecord :=
        ⟨store.length, typeReceived, price, quantity, quantity⟩
      (.ok asset, store ++ [asset])

/-- updateAssetQuantityPrice of the asset repository: validate price,
quantity and availableQuantity, then overwrite exactly those three columns
of the row with the given assetId, values stored exactly as given. -/
def updateAssetQuantityPrice (asset : AssetRecord) (store : List AssetRecord) :
    Except String Unit × List AssetRecord :=
  match ensureMax8Decimals asset.price with
  | .error e => (.error e, store)
  | .ok _ =>
    match ensureMax8Decimals asset.quantity with
    | .error e => (.error e, store)
    | .ok _ =>
      match ensureMax8Decimals asset.availableQuantity with
      | .error e => (.error e, store)
      | .ok _ =>
        (.ok (), store.map fun a =>
          if a.assetId = asset.assetId then
            { a with quantity := asset.quantity, price := asset.price,
                     availableQuantity := asset.availableQuantity }
          else a)

/-- updateAssetQuantityPriceWithQR of the asset repository: the same
validation of price, quantity and availableQuantity and the same
three-column write as updateAssetQuantityPrice, performed through the
caller-supplied query runner instead of the repository connection. -/
def updateAssetQuantityPriceWithQR (asset : AssetRecord) (store : List AssetRecord) :
    Except String Unit × List AssetRecord :=
  match ensureMax8Decimals asset.price with
  | .error e => (.error e, store)
  | .ok _ =>
    match ensureMax8Decimals asset.quantity with
    | .error e => (.error e, store)
    | .ok _ =>
      match ensureMax8Decimals asset.availableQuantity with
      | .error e => (.error e, store)
      | .ok _ =>
        (.ok (), store.map fun a =>
          if a.assetId = asset.assetId then
            { a with quantity := asset.quantity, price := asset.price,
                     availableQuantity := asset.availableQuantity }
          else a)

/-- updateAssetQuantity of the asset repository: validate the quantity, then
overwrite only the quantity column of the row with the given assetId. -/
def updateAssetQuantity (asset : AssetRecord) (store : List AssetRecord) :
    Except String Unit × List AssetRecord :=
  match ensureMax8Decimals asset.quantity with
  | .error e => (.error e, store)
  | .ok _ =>
    (.ok (), store.map fun a =>
      if a.assetId = asset.assetId then { a with quantity := asset.quantity } else a)

/-- updateAssetAvailableQuantity of the asset repository: validate the
available quantity, then overwrite only that column of the row with the
given assetId. -/
def updateAssetAvailableQuantity (asset : AssetRecord) (store : List AssetRecord) :
    Except String Unit × List AssetRecord :=
  match ensureMax8Decimals asset.availableQuantity with
  | .error e => (.error e, store)
  | .ok _ =>
    (.ok (), store.map fun a =>
      if a.assetId = asset.assetId then
        { a with availableQuantity := asset.availableQuantity }
      else a)

/-- updateAssetPrice of the asset repository: validate price and quantity
(the write also touches the quantity column), then overwrite the price and
quantity columns of the row with the given assetId. -/
def updateAssetPrice (asset : AssetRecord) (store : List AssetRecord) :
    Except String Unit × List AssetRecord :=
  match ensureMax8Decimals asset.price with
  | .error e => (.error e, store)
  | .ok _ =>
    match ensureMax8Decimals asset.quantity with
    | .error e => (.error e, store)
    | .ok _ =>
      (.ok (), store.map fun a =>
        if a.assetId = asset.assetId then
          { a with price := asset.price, quantity := asset.quantity }
        else a)

/-- One task handed to the worker pool: an id standing for the promise the
caller holds, and an opaque payload. -/
structure PoolTask where
  taskId : ℕ
  data : ℕ
deriving DecidableEq, Repr

/-- The observable state of WorkerPoolService: the idle-worker stack, the
FIFO task queue, the resolve listeners attached by executeTask in attach
order, the log of postMessage dispatches, and the settled promises with the
value each settled at (a promise settles only once). -/
structure PoolState where
  pool : List ℕ
  taskQueue : List PoolTask
  listeners : List (ℕ × ℕ)
  posts : List (ℕ × ℕ)
  settled : List (ℕ × ℕ)
deriving DecidableEq, Repr

/-- Settle a promise: a second settlement of the same task id is a no-op. -/
def settlePromise (st : List (ℕ × ℕ)) (tid r : ℕ) : List (ℕ × ℕ) :=
  if (st.lookup tid).isSome then st else st ++ [(tid, r)]

/-- executeTask of worker-pool.service.ts: pop an idle worker (pop takes the
last element of the array) and post the task to it, attaching a resolve
listener for this call; with no idle worker, append the task to the queue
(no listener is attached for a queued task). -/
def executeTask (t : PoolTask) (s : PoolState) : PoolState :=
  match s.pool.getLast? with
  | some w =>
      { s with pool := s.pool.dropLast,
               posts := s.posts ++ [(w, t.taskId)],
               listeners := s.listeners ++ [(w, t.taskId)] }
  | none => { s with taskQueue := s.taskQueue ++ [t] }

/-- A worker finishing its current task with result r: the message handler
installed by createWorker runs first (it shifts the queue head, posts it to
this worker, and resolves that queued task with r; with an empty queue it
pushes the worker back into the pool), then every resolve listener attached
to this worker fires with r, in attach order. -/
def workerMessage (w r : ℕ) (s : PoolState) : PoolState :=
  let s1 :=
    match s.taskQueue with
    | u :: rest =>
        { s with taskQueue := rest,
                 posts := s.posts ++ [(w, u.taskId)],
                 settled := settlePromise s.settled u.taskId r }
    | [] => { s with pool := s.pool ++ [w] }
  let tids := (s.listeners.filter (fun p => p.1 = w)).map (fun p => p.2)
  { s1 with settled := tids.foldl (fun st tid => settlePromise st tid r) s1.settled }

/-! ## Helper lemmas -/

/-- A zero quantity is below the minimum-fillable threshold. -/
theorem isMinimumQuantity_zero : isMinimumQuantity 0 = true := by
  norm_num [isMinimumQuantity]

/-- The conditional the source uses for the fill quantity is the minimum of
the remaining quantity and the level size. -/
theorem fill_if_eq_min (a s : ℚ) : (if a ≥ s then s else a) = min a s := by
  rcases le_or_lt s a with hle | hlt
  · simp [ge_iff_le, hle, min_eq_right hle]
  · rw [if_neg (by exact not_le.mpr hlt), min_eq_left hlt.le]

/-- Every history record fired by one executeBidTrade call carries the ask
price of the level the call was given. -/
theorem executeBidTrade_history_ask
    (dto : BidDto) (acct persisted : Account) (asset? : Option AssetQ)
    (order : OrderBookEntry) (db : Option Trade) (lockOk updateOk assetOk balanceOk : Bool)
    (f : Fill)
    (hf : f ∈ (executeBidTrade dto acct persisted asset? order db lockOk updateOk assetOk balanceOk).history) :
    f.ask_price = order.ask_price := by
  unfold executeBidTrade at hf
  cases lockOk
  · simp [Txn.start] at hf
  · cases db
    · simp [Txn.start] at hf
    · rename_i t
      by_cases h1 : isMinimumQuantity t.quantity
      · simp [Txn.start, h1] at hf
      · by_cases h2 : isMinimumQuantity (formatQuantity (if t.quantity ≥ order.ask_size then order.ask_size else t.quantity))
        · simp [Txn.start, h1, h2] at hf
        · cases updateOk <;> simp [Txn.start, Txn.write, Txn.commit, h1, h2] at hf <;>
            subst hf <;> rfl

/-- Every fill the loop records comes from a level priced at or below the
limit price of the order. -/
theorem bidLoop_fills_eligible
    (dto : BidDto) (persisted : Account) (asset? : Option AssetQ) :
    ∀ (levels : List OrderBookEntry) (faults : List (Bool × Bool)) (db : Option Trade)
      (acct : Account) (f : Fill),
      f ∈ (bidLoop dto persisted asset? faults db acct levels).fills →
      f.ask_price ≤ dto.receivedPrice := by
  intro levels
  induction levels with
  | nil => intro faults db acct f hf; simp [bidLoop] at hf
  | cons lvl rest ih =>
    intro faults db acct f hf
    unfold bidLoop at hf
    by_cases hp : lvl.ask_price > dto.receivedPrice
    · simp [hp] at hf
    · simp only [hp, if_false] at hf
      push_neg at hp
      generalize hg : faults.headD (true, true) = fp at hf
      rcases hout : (executeBidTrade dto acct persisted asset? lvl db
          fp.1 fp.2 true true).outcome with e | remaining
      · rw [hout] at hf
        simp at hf
        have := executeBidTrade_history_ask dto acct persisted asset? lvl db
          fp.1 fp.2 true true f hf
        rw [this]; exact hp
      · rw [hout] at hf
        by_cases hm : isMinimumQuantity remaining
        · simp [hm] at hf
          have := executeBidTrade_history_ask dto acct persisted asset? lvl db
            fp.1 fp.2 true true f hf
          rw [this]; exact hp
        · simp [hm] at hf
          rcases hf with hf | hf
          · have := executeBidTrade_history_ask dto acct persisted asset? lvl db
              fp.1 fp.2 true true f hf
            rw [this]; exact hp
          · exact ih _ _ _ f hf

/-- Every history record fired by one executeBidTrade call on an existing
order row has the truncated min of remaining quantity and level size as its
quantity. -/
theorem executeBidTrade_history_quantity
    (dto : BidDto) (acct persisted : Account) (asset? : Option AssetQ)
    (order : OrderBookEntry) (t : Trade) (lockOk updateOk assetOk balanceOk : Bool)
    (f : Fill)
    (hf : f ∈ (executeBidTrade dto acct persisted asset? order (some t) lockOk updateOk assetOk balanceOk).history) :
    f.quantity = formatQuantity (min t.quantity order.ask_size) := by
  have hmin := fill_if_eq_min t.quantity order.ask_size
  unfold executeBidTrade at hf
  cases lockOk
  · simp [Txn.start] at hf
  · by_cases h1 : isMinimumQuantity t.quantity
    · simp [Txn.start, h1] at hf
    · by_cases h2 : isMinimumQuantity (formatQuantity (if t.quantity ≥ order.ask_size then order.ask_size else t.quantity))
      · simp [Txn.start, h1, h2] at hf
      · cases updateOk <;> simp [Txn.start, Txn.write, Txn.commit, h1, h2] at hf <;>
          subst hf <;> simp [hmin]

/-- When the truncated fill quantity is below minimum-fillable, the attempt
persists nothing and the loop stops at that level, leaving deeper levels
untouched. -/
theorem executeBidTrade_dust_stops
    (dto : BidDto) (acct persisted : Account) (asset? : Option AssetQ)
    (order : OrderBookEntry) (t : Trade) (rest : List OrderBookEntry)
    (hd : isMinimumQuantity (formatQuantity (min t.quantity order.ask_size)) = true) :
    executeBidTrade dto acct persisted asset? order (some t) true true true true =
      ⟨.ok 0, some t, acct, persisted, none, [], none, none, []⟩
    ∧ (¬ order.ask_price > dto.receivedPrice →
        bidLoop dto persisted asset? [] (some t) acct (order :: rest) =
          ⟨.ok (), some t, acct, []⟩) := by
  have hmin := fill_if_eq_min t.quantity order.ask_size
  have hexec : executeBidTrade dto acct persisted asset? order (some t) true true true true =
      ⟨.ok 0, some t, acct, persisted, none, [], none, none, []⟩ := by
    unfold executeBidTrade
    by_cases h1 : isMinimumQuantity t.quantity
    · simp [Txn.start, h1]
    · simp [Txn.start, h1, hmin, hd]
  refine ⟨hexec, fun hp => ?_⟩
  unfold bidLoop
  simp [hp, hexec, isMinimumQuantity_zero]

/-! ## Claim theorems -/

/-- C1: for every BUY fill executed at fill price P and quantity Q (the
buyData the post-commit reconciliation is invoked with), the in-memory
account gains exactly formatQuantity ((reservedPrice - P) * Q) on the
available balance and loses exactly formatQuantity (P * Q) on the total
balance, the persisted account row is updated by updateAccountBalances with
the same two deltas, and no other balance field is touched (reservedPrice is
the limit price receivedPrice at which createBidTrade reserved the
funds). -/
theorem executeBidTrade_balance_reconciliation
    (dto : BidDto) (acct persisted : Account) (asset? : Option AssetQ)
    (order : OrderBookEntry) (db : Option Trade) (lockOk updateOk assetOk : Bool)
    (f : Fill)
    (h : (executeBidTrade dto acct persisted asset? order db lockOk updateOk assetOk true).balanceCall = some f) :
    (executeBidTrade dto acct persisted asset? order db lockOk updateOk assetOk true).account.availableKRW
        = acct.availableKRW + formatQuantity ((dto.receivedPrice - f.price) * f.quantity)
    ∧ (executeBidTrade dto acct persisted asset? order db lockOk updateOk assetOk true).account.KRW
        = acct.KRW - formatQuantity (f.price * f.quantity)
    ∧ (executeBidTrade dto acct persisted asset? order db lockOk updateOk assetOk true).account.USDT = acct.USDT
    ∧ (executeBidTrade dto acct persisted asset? order db lockOk updateOk assetOk true).account.BTC = acct.BTC
    ∧ (executeBidTrade dto acct persisted asset? order db lockOk updateOk assetOk true).persisted
        = { persisted with
            KRW := persisted.KRW - formatQuantity (f.price * f.quantity),
            availableKRW := persisted.availableKRW
              + formatQuantity ((dto.receivedPrice - f.price) * f.quantity) } := by
  unfold executeBidTrade at h ⊢
  cases lockOk
  · simp [Txn.start, Txn.rollback] at h
  · cases db
    · simp [Txn.start] at h
    · rename_i t
      by_cases h1 : isMinimumQuantity t.quantity
      · simp [Txn.start, h1] at h
      · by_cases h2 : isMinimumQuantity (formatQuantity (if t.quantity ≥ order.ask_size then order.ask_size else t.quantity))
        · simp [Txn.start, h1, h2] at h
        · cases updateOk
          · simp [Txn.start, Txn.write, h1, h2] at h
          · simp [Txn.start, Txn.write, Txn.commit, h1, h2] at h
            subst h
            simp [Txn.start, Txn.write, Txn.commit, h1, h2, updateAccountBalances,
              updateAccountCurrencyWithBid, sub_eq_add_neg]

/-- Witness for C1: a concrete committed fill at price 9000 and quantity 1
against a BUY order with limit 9500. -/
theorem executeBidTrade_balance_reconciliation_witness :
    (executeBidTrade ⟨1, 9500, 3, 1, "BTC"⟩ ⟨1000000, 1000000, 0, 0⟩ ⟨1000000, 1000000, 0, 0⟩
        none ⟨9000, 1⟩ (some ⟨1, 9500, 3⟩) true true true true).balanceCall = some ⟨9000, 9000, 1⟩
    ∧ (executeBidTrade ⟨1, 9500, 3, 1, "BTC"⟩ ⟨1000000, 1000000, 0, 0⟩ ⟨1000000, 1000000, 0, 0⟩
        none ⟨9000, 1⟩ (some ⟨1, 9500, 3⟩) true true true true).account.availableKRW
      = (⟨1000000, 1000000, 0, 0⟩ : Account).availableKRW
        + formatQuantity (((⟨1, 9500, 3, 1, "BTC"⟩ : BidDto).receivedPrice
            - (⟨9000, 9000, 1⟩ : Fill).price) * (⟨9000, 9000, 1⟩ : Fill).quantity) := by
  have h : (executeBidTrade ⟨1, 9500, 3, 1, "BTC"⟩ ⟨1000000, 1000000, 0, 0⟩ ⟨1000000, 1000000, 0, 0⟩
      none ⟨9000, 1⟩ (some ⟨1, 9500, 3⟩) true true true true).balanceCall = some ⟨9000, 9000, 1⟩ := by
    norm_num [executeBidTrade, Txn.start, Txn.write, Txn.commit, formatQuantity, isMinimumQuantity]
  exact ⟨h, (executeBidTrade_balance_reconciliation _ _ _ _ _ _ _ _ _ _ h).1⟩

/-- C2: the fill loop never records a fill at a level whose ask price
strictly exceeds the limit price of the order; a level above the limit stops
the iteration immediately with nothing done; and on levels priced
[9000, 9500, 10000] with a BUY limit of 9500 and quantity 3, the attempt
fills (9000, 1) and (9500, 2) and never touches the 10000 level. -/
theorem bidLoop_price_crossing_stop
    (dto : BidDto) (persisted : Account) (asset? : Option AssetQ)
    (faults : List (Bool × Bool)) (db : Option Trade) (acct : Account)
    (levels : List OrderBookEntry) (f : Fill)
    (hf : f ∈ (bidLoop dto persisted asset? faults db acct levels).fills) :
    f.ask_price ≤ dto.receivedPrice
    ∧ (∀ (lvl : OrderBookEntry) (rest : List OrderBookEntry),
        lvl.ask_price > dto.receivedPrice →
        bidLoop dto persisted asset? faults db acct (lvl :: rest) = ⟨.ok (), db, acct, []⟩)
    ∧ (bidLoop ⟨1, 9500, 3, 1, "BTC"⟩ ⟨1000000, 1000000, 0, 0⟩ none []
        (some ⟨1, 9500, 3⟩) ⟨1000000, 1000000, 0, 0⟩
        [⟨9000, 1⟩, ⟨9500, 5⟩, ⟨10000, 3⟩]).fills =
        [⟨9000, 9000, 1⟩, ⟨9500, 9500, 2⟩] := by
  refine ⟨bidLoop_fills_eligible dto persisted asset? levels faults db acct f hf,
    fun lvl rest hgt => ?_, ?_⟩
  · unfold bidLoop
    simp [hgt]
  · norm_num [bidLoop, executeBidTrade, formatQuantity, isMinimumQuantity,
      Txn.start, Txn.write, Txn.commit, updateAccountBalances,
      updateAccountCurrencyWithBid, processAssetUpdate]

/-- Witness for C2: the fill recorded at the 9000 level of the example is at
or below the 9500 limit. -/
theorem bidLoop_price_crossing_stop_witness :
    (⟨9000, 9000, 1⟩ : Fill).ask_price ≤ (⟨1, 9500, 3, 1, "BTC"⟩ : BidDto).receivedPrice := by
  have hf : (⟨9000, 9000, 1⟩ : Fill) ∈ (bidLoop ⟨1, 9500, 3, 1, "BTC"⟩ ⟨1000000, 1000000, 0, 0⟩ none []
      (some ⟨1, 9500, 3⟩) ⟨1000000, 1000000, 0, 0⟩ [⟨9000, 1⟩, ⟨9500, 5⟩, ⟨10000, 3⟩]).fills := by
    norm_num [bidLoop, executeBidTrade, formatQuantity, isMinimumQuantity,
      Txn.start, Txn.write, Txn.commit]
  exact (bidLoop_price_crossing_stop _ _ _ _ _ _ _ _ hf).1

/-- C3: (code bug) at the failing input -- available balance 1000, order of
1 unit at price 10000, account present -- the insufficient-funds error
raised inside the transaction is swallowed by the catch block of
createBidTrade: the call resolves with undefined instead of rejecting, while
the rollback leaves the state untouched and no pending order is inserted.
The claim says the promise rejects with the insufficient-funds error. -/
theorem createBidTrade_insufficient_funds_swallowed :
    createBidTrade ⟨7, 10000, 1, 1, "BTC"⟩ true ⟨⟨1000000, 1000, 0, 0⟩, [], []⟩ =
      (.resolvedUndefined, ⟨⟨1000000, 1000, 0, 0⟩, [], []⟩) := by
  norm_num [createBidTrade, checkCurrencyBalance, isMinimumQuantity, formatQuantity,
    Int.ceil_neg]

/-- C4: every history record fired by a fill attempt on an existing order
row has quantity formatQuantity (min (remaining quantity) (level size)), and
when that truncated quantity is below minimum-fillable the attempt persists
no fill (everything it could touch is unchanged) and the loop stops without
processing deeper levels. -/
theorem executeBidTrade_fill_min_and_dust
    (dto : BidDto) (acct persisted : Account) (asset? : Option AssetQ)
    (order : OrderBookEntry) (t : Trade) (lockOk updateOk assetOk balanceOk : Bool)
    (rest : List OrderBookEntry) :
    (∀ f ∈ (executeBidTrade dto acct persisted asset? order (some t) lockOk updateOk assetOk balanceOk).history,
        f.quantity = formatQuantity (min t.quantity order.ask_size))
    ∧ (isMinimumQuantity (formatQuantity (min t.quantity order.ask_size)) = true →
        executeBidTrade dto acct persisted asset? order (some t) true true true true =
          ⟨.ok 0, some t, acct, persisted, none, [], none, none, []⟩
        ∧ (¬ order.ask_price > dto.receivedPrice →
            bidLoop dto persisted asset? [] (some t) acct (order :: rest) =
              ⟨.ok (), some t, acct, []⟩)) :=
  ⟨fun f hf => executeBidTrade_history_quantity dto acct persisted asset? order t
      lockOk updateOk assetOk balanceOk f hf,
   fun hd => executeBidTrade_dust_stops dto acct persisted asset? order t rest hd⟩

/-- Witness for C4: the concrete fill of quantity 1 = min 3 1 truncated, and
a level of size 0.000000005 whose truncated fill quantity is dust, so the
attempt returns 0 with nothing persisted. -/
theorem executeBidTrade_fill_min_and_dust_witness :
    (⟨9000, 9000, 1⟩ : Fill).quantity
      = formatQuantity (min (⟨1, 9500, 3⟩ : Trade).quantity (⟨9000, 1⟩ : OrderBookEntry).ask_size)
    ∧ executeBidTrade ⟨1, 9500, 3, 1, "BTC"⟩ ⟨1000000, 1000000, 0, 0⟩ ⟨1000000, 1000000, 0, 0⟩ none
        ⟨9000, Rat.divInt 5 1000000000⟩ (some ⟨1, 9500, 3⟩) true true true true =
        ⟨.ok 0, some ⟨1, 9500, 3⟩, ⟨1000000, 1000000, 0, 0⟩, ⟨1000000, 1000000, 0, 0⟩,
          none, [], none, none, []⟩ := by
  have hf : (⟨9000, 9000, 1⟩ : Fill) ∈ (executeBidTrade ⟨1, 9500, 3, 1, "BTC"⟩
      ⟨1000000, 1000000, 0, 0⟩ ⟨1000000, 1000000, 0, 0⟩ none ⟨9000, 1⟩
      (some ⟨1, 9500, 3⟩) true true true true).history := by
    norm_num [executeBidTrade, Txn.start, Txn.write, Txn.commit, formatQuantity, isMinimumQuantity]
  have hd : isMinimumQuantity (formatQuantity (min (⟨1, 9500, 3⟩ : Trade).quantity
      (⟨9000, Rat.divInt 5 1000000000⟩ : OrderBookEntry).ask_size)) = true := by
    norm_num [isMinimumQuantity, formatQuantity, min_def, Rat.divInt_eq_div]
  exact ⟨(executeBidTrade_fill_min_and_dust _ _ _ _ _ _ true true true true []).1 _ hf,
    ((executeBidTrade_fill_min_and_dust ⟨1, 9500, 3, 1, "BTC"⟩ ⟨1000000, 1000000, 0, 0⟩
      ⟨1000000, 1000000, 0, 0⟩ none ⟨9000, Rat.divInt 5 1000000000⟩ ⟨1, 9500, 3⟩
      true true true true []).2 hd).1⟩

/-- C5: a storage failure inside the fill transaction, before commit, rolls
back fully: when the locked load fails the attempt throws with the order
row, the in-memory account, the persisted account and the asset store all
untouched, and when the remaining-quantity update fails the pending write is
discarded the same way; the error then propagates out of the attempt through
the fill loop. -/
theorem executeBidTrade_rollback_on_failure
    (dto : BidDto) (acct persisted : Account) (asset? : Option AssetQ)
    (order : OrderBookEntry) (db : Option Trade) (t : Trade)
    (updateOk : Bool) (rest : List OrderBookEntry)
    (h1 : isMinimumQuantity t.quantity = false)
    (h2 : isMinimumQuantity (formatQuantity (min t.quantity order.ask_size)) = false) :
    executeBidTrade dto acct persisted asset? order db false updateOk true true =
      ⟨.error .storage, db, acct, persisted, none, [], none, none, []⟩
    ∧ executeBidTrade dto acct persisted asset? order (some t) true false true true =
      ⟨.error .storage, some t, acct, persisted, none,
        [⟨order.ask_price, formatQuantity (order.ask_price * dto.krw),
          formatQuantity (min t.quantity order.ask_size)⟩], none, none, []⟩
    ∧ (¬ order.ask_price > dto.receivedPrice →
        (bidLoop dto persisted asset? [(true, false)] (some t) acct (order :: rest)).outcome
          = .error .storage
        ∧ (bidLoop dto persisted asset? [(true, false)] (some t) acct (order :: rest)).trade
          = some t
        ∧ (bidLoop dto persisted asset? [(true, false)] (some t) acct (order :: rest)).account
          = acct) := by
  have hmin := fill_if_eq_min t.quantity order.ask_size
  have hlock : executeBidTrade dto acct persisted asset? order db false updateOk true true =
      ⟨.error .storage, db, acct, persisted, none, [], none, none, []⟩ := by
    unfold executeBidTrade
    simp [Txn.start, Txn.rollback]
  have hupd : executeBidTrade dto acct persisted asset? order (some t) true false true true =
      ⟨.error .storage, some t, acct, persisted, none,
        [⟨order.ask_price, formatQuantity (order.ask_price * dto.krw),
          formatQuantity (min t.quantity order.ask_size)⟩], none, none, []⟩ := by
    unfold executeBidTrade
    simp [Txn.start, Txn.write, Txn.rollback, h1, hmin, h2]
  refine ⟨hlock, hupd, fun hp => ?_⟩
  unfold bidLoop
  simp [hp, hupd]

/-- Witness for C5: a concrete failed attempt on an order of quantity 3 at a
level of size 1: the thrown attempt leaves the order row and both accounts
unchanged, and the loop propagates the storage error. -/
theorem executeBidTrade_rollback_on_failure_witness :
    executeBidTrade ⟨1, 9500, 3, 1, "BTC"⟩ ⟨1000000, 1000000, 0, 0⟩ ⟨1000000, 1000000, 0, 0⟩ none
        ⟨9000, 1⟩ (some ⟨1, 9500, 3⟩) false true true true =
      ⟨.error .storage, some ⟨1, 9500, 3⟩, ⟨1000000, 1000000, 0, 0⟩, ⟨1000000, 1000000, 0, 0⟩,
        none, [], none, none, []⟩
    ∧ (bidLoop ⟨1, 9500, 3, 1, "BTC"⟩ ⟨1000000, 1000000, 0, 0⟩ none [(true, false)]
        (some ⟨1, 9500, 3⟩) ⟨1000000, 1000000, 0, 0⟩ [⟨9000, 1⟩]).outcome = .error .storage := by
  have h1 : isMinimumQuantity (⟨1, 9500, 3⟩ : Trade).quantity = false := by
    norm_num [isMinimumQuantity]
  have h2 : isMinimumQuantity (formatQuantity (min (⟨1, 9500, 3⟩ : Trade).quantity
      (⟨9000, 1⟩ : OrderBookEntry).ask_size)) = false := by
    norm_num [isMinimumQuantity, formatQuantity, min_def]
  have hp : ¬ (⟨9000, 1⟩ : OrderBookEntry).ask_price
      > (⟨1, 9500, 3, 1, "BTC"⟩ : BidDto).receivedPrice := by norm_num
  exact ⟨(executeBidTrade_rollback_on_failure ⟨1, 9500, 3, 1, "BTC"⟩ ⟨1000000, 1000000, 0, 0⟩
      ⟨1000000, 1000000, 0, 0⟩ none ⟨9000, 1⟩ (some ⟨1, 9500, 3⟩) ⟨1, 9500, 3⟩ true [] h1 h2).1,
    ((executeBidTrade_rollback_on_failure ⟨1, 9500, 3, 1, "BTC"⟩ ⟨1000000, 1000000, 0, 0⟩
      ⟨1000000, 1000000, 0, 0⟩ none ⟨9000, 1⟩ (some ⟨1, 9500, 3⟩) ⟨1, 9500, 3⟩ true [] h1 h2).2.2 hp).1⟩

/-- C6: when the locked re-fetch finds the order missing, or finds its
remaining quantity already below the minimum-fillable threshold, the attempt
returns 0 without a hard error and mutates nothing -- no balance, order,
history or asset state -- and the whole per-order service attempt terminates
normally with no mutation, only the guard entry being cleared. -/
theorem executeBidTrade_vanished_no_mutation
    (dto : BidDto) (acct persisted : Account) (asset? : Option AssetQ)
    (order : OrderBookEntry) (db : Option Trade)
    (levels : List OrderBookEntry) (g : ℕ → Bool)
    (hdb : db = none ∨ ∃ t, db = some t ∧ isMinimumQuantity t.quantity = true) :
    executeBidTrade dto acct persisted asset? order db true true true true =
      ⟨.ok 0, db, acct, persisted, none, [], none, none, []⟩
    ∧ (g dto.tradeId = false →
        bidTradeService dto levels persisted asset? [] ⟨g, db, acct⟩ =
          (⟨fun i => if i = dto.tradeId then false else g i, db, acct⟩, .ok (), [])) := by
  have hexec : executeBidTrade dto acct persisted asset? order db true true true true =
      ⟨.ok 0, db, acct, persisted, none, [], none, none, []⟩ := by
    unfold executeBidTrade
    rcases hdb with rfl | ⟨t, rfl, ht⟩
    · simp [Txn.start]
    · simp [Txn.start, ht]
  refine ⟨hexec, fun hg => ?_⟩
  unfold bidTradeService
  simp only [hg, Bool.false_eq_true, if_false]
  have hloop : bidLoop dto persisted asset? [] db acct levels = ⟨.ok (), db, acct, []⟩ := by
    cases levels with
    | nil => simp [bidLoop]
    | cons lvl rest =>
      unfold bidLoop
      by_cases hp : lvl.ask_price > dto.receivedPrice
      · simp [hp]
      · have hx : executeBidTrade dto acct persisted asset? lvl db true true true true =
            ⟨.ok 0, db, acct, persisted, none, [], none, none, []⟩ := by
          unfold executeBidTrade
          rcases hdb with rfl | ⟨t, rfl, ht⟩
          · simp [Txn.start]
          · simp [Txn.start, ht]
        simp [hp, hx, isMinimumQuantity_zero]
  simp [hloop]

/-- Witness for C6: a vanished order row (none) at a concrete level: the
attempt returns 0 and the service attempt ends with no mutation. -/
theorem executeBidTrade_vanished_no_mutation_witness :
    executeBidTrade ⟨1, 9500, 3, 1, "BTC"⟩ ⟨1000000, 1000000, 0, 0⟩ ⟨1000000, 1000000, 0, 0⟩ none
        ⟨9000, 1⟩ none true true true true =
      ⟨.ok 0, none, ⟨1000000, 1000000, 0, 0⟩, ⟨1000000, 1000000, 0, 0⟩, none, [], none, none, []⟩
    ∧ bidTradeService ⟨1, 9500, 3, 1, "BTC"⟩ [⟨9000, 1⟩] ⟨1000000, 1000000, 0, 0⟩ none []
        ⟨fun _ => false, none, ⟨1000000, 1000000, 0, 0⟩⟩ =
      (⟨fun i => if i = 1 then false else false, none, ⟨1000000, 1000000, 0, 0⟩⟩, .ok (), []) := by
  have h := executeBidTrade_vanished_no_mutation ⟨1, 9500, 3, 1, "BTC"⟩ ⟨1000000, 1000000, 0, 0⟩
    ⟨1000000, 1000000, 0, 0⟩ none ⟨9000, 1⟩ none [⟨9000, 1⟩] (fun _ => false) (Or.inl rfl)
  exact ⟨h.1, h.2 rfl⟩

/-- C7 counterexample: the value 0.000000001 has more than 8 fractional
digits (multiplying it by 10 ^ 8 still leaves denominator 10), yet
createAsset accepts it and persists it, because its JavaScript string
rendering 1e-9 contains no dot; the claim as stated says the write must fail
before any state mutation. -/
theorem createAsset_nine_decimals_accepted :
    ((1 : ℚ) / 1000000000 * 10 ^ 8).den = 10
    ∧ (1 : ℚ) / 1000000000 = Rat.divInt 1 1000000000
    ∧ createAsset "BTC" (.fin 1) (.fin (Rat.divInt 1 1000000000)) [] =
        (.ok ⟨0, "BTC", .fin 1, .fin (Rat.divInt 1 1000000000), .fin (Rat.divInt 1 1000000000)⟩,
         [⟨0, "BTC", .fin 1, .fin (Rat.divInt 1 1000000000), .fin (Rat.divInt 1 1000000000)⟩]) := by
  refine ⟨by norm_num, by norm_num [Rat.divInt_eq_div], by decide⟩

/-- C7 (amended): AssetRepository validates every numeric field before the
write: NaN and non-finite values always fail; a finite value whose rendered
string carries more than 8 characters after the first dot fails with an
error before any state mutation; a value that passes validation (which
includes small values rendered in exponential form, even with more than 8
fractional digits) is persisted unchanged, never rounded -- for createAsset,
updateAssetQuantityPrice and all its variants: updateAssetQuantityPriceWithQR
(behaviourally identical to updateAssetQuantityPrice), updateAssetQuantity,
updateAssetAvailableQuantity and updateAssetPrice. -/
theorem assetRepository_validates_before_write
    (name : String) (p q : JSNum) (a : AssetRecord) (store : List AssetRecord)
    (qq : ℚ) (l : ℕ) :
    (∀ b, ensureMax8Decimals .nan = .error "invalid value"
        ∧ ensureMax8Decimals (.inf b) = .error "invalid value")
    ∧ (jsDotFracLen qq = some l → l > 8 →
        ensureMax8Decimals (.fin qq) = .error "more than 8 decimal places")
    ∧ (ensureMax8Decimals p = .ok () → ensureMax8Decimals q = .ok () →
        createAsset name p q store =
          (.ok ⟨store.length, name, p, q, q⟩, store ++ [⟨store.length, name, p, q, q⟩]))
    ∧ (¬ (ensureMax8Decimals p = .ok () ∧ ensureMax8Decimals q = .ok ()) →
        (createAsset name p q store).2 = store
        ∧ ∃ e, (createAsset name p q store).1 = .error e)
    ∧ (ensureMax8Decimals a.price = .ok () → ensureMax8Decimals a.quantity = .ok () →
        ensureMax8Decimals a.availableQuantity = .ok () →
        updateAssetQuantityPrice a store =
          (.ok (), store.map fun b =>
            if b.assetId = a.assetId then
              { b with quantity := a.quantity, price := a.price,
                       availableQuantity := a.availableQuantity }
            else b))
    ∧ (¬ (ensureMax8Decimals a.price = .ok () ∧ ensureMax8Decimals a.quantity = .ok ()
          ∧ ensureMax8Decimals a.availableQuantity = .ok ()) →
        (updateAssetQuantityPrice a store).2 = store
        ∧ ∃ e, (updateAssetQuantityPrice a store).1 = .error e)
    ∧ updateAssetQuantityPriceWithQR a store = updateAssetQuantityPrice a store
    ∧ (ensureMax8Decimals a.quantity = .ok () →
        updateAssetQuantity a store =
          (.ok (), store.map fun b =>
            if b.assetId = a.assetId then { b with quantity := a.quantity } else b))
    ∧ (¬ ensureMax8Decimals a.quantity = .ok () →
        (updateAssetQuantity a store).2 = store
        ∧ ∃ e, (updateAssetQuantity a store).1 = .error e)
    ∧ (ensureMax8Decimals a.availableQuantity = .ok () →
        updateAssetAvailableQuantity a store =
          (.ok (), store.map fun b =>
            if b.assetId = a.assetId then
              { b with availableQuantity := a.availableQuantity }
            else b))
    ∧ (¬ ensureMax8Decimals a.availableQuantity = .ok () →
        (updateAssetAvailableQuantity a store).2 = store
        ∧ ∃ e, (updateAssetAvailableQuantity a store).1 = .error e)
    ∧ (ensureMax8Decimals a.price = .ok () → ensureMax8Decimals a.quantity = .ok () →
        updateAssetPrice a store =
          (.ok (), store.map fun b =>
            if b.assetId = a.assetId then
              { b with price := a.price, quantity := a.quantity }
            else b))
    ∧ (¬ (ensureMax8Decimals a.price = .ok () ∧ ensureMax8Decimals a.quantity = .ok ()) →
        (updateAssetPrice a store).2 = store
        ∧ ∃ e, (updateAssetPrice a store).1 = .error e) := by
  refine ⟨fun b => ⟨rfl, rfl⟩, fun hl hgt => ?_, fun hp hq => ?_, fun hbad => ?_,
    fun h1 h2 h3 => ?_, fun hbad => ?_, rfl, fun h2 => ?_, fun hbad => ?_,
    fun h3 => ?_, fun hbad => ?_, fun h1 h2 => ?_, fun hbad => ?_⟩
  · simp [ensureMax8Decimals, hl, hgt]
  · simp [createAsset, hp, hq]
  · rcases he : ensureMax8Decimals p with e | u
    · simp [createAsset, he]
    · cases u
      rcases he2 : ensureMax8Decimals q with e | u
      · simp [createAsset, he, he2]
      · cases u
        exact absurd ⟨he, he2⟩ hbad
  · simp [updateAssetQuantityPrice, h1, h2, h3]
  · rcases he : ensureMax8Decimals a.price with e | u
    · simp [updateAssetQuantityPrice, he]
    · cases u
      rcases he2 : ensureMax8Decimals a.quantity with e | u
      · simp [updateAssetQuantityPrice, he, he2]
      · cases u
        rcases he3 : ensureMax8Decimals a.availableQuantity with e | u
        · simp [updateAssetQuantityPrice, he, he2, he3]
        · cases u
          exact absurd ⟨he, he2, he3⟩ hbad
  · simp [updateAssetQuantity, h2]
  · rcases he : ensureMax8Decimals a.quantity with e | u
    · simp [updateAssetQuantity, he]
    · cases u
      exact absurd he hbad
  · simp [updateAssetAvailableQuantity, h3]
  · rcases he : ensureMax8Decimals a.availableQuantity with e | u
    · simp [updateAssetAvailableQuantity, he]
    · cases u
      exact absurd he hbad
  · simp [updateAssetPrice, h1, h2]
  · rcases he : ensureMax8Decimals a.price with e | u
    · simp [updateAssetPrice, he]
    · cases u
      rcases he2 : ensureMax8Decimals a.quantity with e | u
      · simp [updateAssetPrice, he, he2]
      · cases u
        exact absurd ⟨he, he2⟩ hbad

/-- Witness for C7: the value 0.123456789 renders with 9 digits after the
dot and is rejected; valid values are persisted exactly by createAsset and
by the single-column variant updateAssetQuantity. -/
theorem assetRepository_validates_before_write_witness :
    ensureMax8Decimals (.fin (Rat.divInt 123456789 1000000000)) = .error "more than 8 decimal places"
    ∧ createAsset "BTC" (.fin 1) (.fin 1) [] =
        (.ok ⟨0, "BTC", .fin 1, .fin 1, .fin 1⟩, [⟨0, "BTC", .fin 1, .fin 1, .fin 1⟩])
    ∧ updateAssetQuantity ⟨0, "BTC", .fin 1, .fin 1, .fin 1⟩
        [⟨0, "BTC", .fin 1, .fin 2, .fin 1⟩] =
        (.ok (), [⟨0, "BTC", .fin 1, .fin 1, .fin 1⟩]) := by
  have hl : jsDotFracLen (Rat.divInt 123456789 1000000000) = some 9 := by decide
  have h1 : ensureMax8Decimals (JSNum.fin 1) = .ok () := by decide
  refine ⟨(assetRepository_validates_before_write "BTC" (.fin 1) (.fin 1)
      ⟨0, "BTC", .fin 1, .fin 1, .fin 1⟩ [] (Rat.divInt 123456789 1000000000) 9).2.1 hl
        (by norm_num),
    (assetRepository_validates_before_write "BTC" (.fin 1) (.fin 1)
      ⟨0, "BTC", .fin 1, .fin 1, .fin 1⟩ [] (Rat.divInt 123456789 1000000000) 9).2.2.1 h1 h1,
    ?_⟩
  have hu := (assetRepository_validates_before_write "BTC" (.fin 1) (.fin 1)
      ⟨0, "BTC", .fin 1, .fin 1, .fin 1⟩ [⟨0, "BTC", .fin 1, .fin 2, .fin 1⟩]
      (Rat.divInt 123456789 1000000000) 9).2.2.2.2.2.2.2.1 h1
  simpa using hu

/-- C8: while an attempt for an order id is in flight (its guard entry set),
a second invocation of bidTradeService for the same id returns immediately
with no effect at all -- no snapshot walk, no fill, no state change -- and
whenever the attempt actually runs (guard clear at entry), the guard entry
for that id is clear again after the attempt finishes, for every failure
injection, so also when the loop throws. -/
theorem bidTradeService_inflight_guard
    (dto : BidDto) (levels : List OrderBookEntry) (persisted : Account)
    (asset? : Option AssetQ) (faults : List (Bool × Bool)) (s : ServiceState) :
    (s.guard dto.tradeId = true →
      bidTradeService dto levels persisted asset? faults s = (s, .ok (), []))
    ∧ (s.guard dto.tradeId = false →
      (bidTradeService dto levels persisted asset? faults s).1.guard dto.tradeId = false) := by
  constructor
  · intro hg
    unfold bidTradeService
    simp [hg]
  · intro hg
    unfold bidTradeService
    simp [hg]

/-- Witness for C8: a set guard makes the call a no-op, and after a run that
throws (lock failure injected at the first level) the guard entry is clear. -/
theorem bidTradeService_inflight_guard_witness :
    bidTradeService ⟨1, 9500, 3, 1, "BTC"⟩ [] ⟨1000000, 1000000, 0, 0⟩ none [(false, true)]
        ⟨fun _ => true, none, ⟨1000000, 1000000, 0, 0⟩⟩ =
      (⟨fun _ => true, none, ⟨1000000, 1000000, 0, 0⟩⟩, .ok (), [])
    ∧ (bidTradeService ⟨1, 9500, 3, 1, "BTC"⟩ [⟨9000, 1⟩] ⟨1000000, 1000000, 0, 0⟩ none [(false, true)]
        ⟨fun _ => false, none, ⟨1000000, 1000000, 0, 0⟩⟩).1.guard 1 = false :=
  ⟨(bidTradeService_inflight_guard ⟨1, 9500, 3, 1, "BTC"⟩ [] ⟨1000000, 1000000, 0, 0⟩ none
      [(false, true)] ⟨fun _ => true, none, ⟨1000000, 1000000, 0, 0⟩⟩).1 rfl,
   (bidTradeService_inflight_guard ⟨1, 9500, 3, 1, "BTC"⟩ [⟨9000, 1⟩] ⟨1000000, 1000000, 0, 0⟩ none
      [(false, true)] ⟨fun _ => false, none, ⟨1000000, 1000000, 0, 0⟩⟩).2 rfl⟩

/-- C9: (code bug) with every worker busy (worker 1 running task 101 with a
resolve listener attached) and task 105 queued, the completion of task 101
with result 10 makes the createWorker message handler shift task 105 off the
queue, post it, and resolve the promise of task 105 with 10 -- the result of
task 101; when task 105 later completes with its own result 20, its promise
is already settled at 10.  The claim says each caller receives the result of
its own task. -/
theorem workerPool_queued_task_resolved_with_previous_result :
    (workerMessage 1 20 (workerMessage 1 10 (executeTask ⟨105, 7⟩
        ⟨[], [], [(1, 101)], [], []⟩))).settled = [(105, 10), (101, 10)]
    ∧ (10 : ℕ) ≠ 20 := by decide

/-- C10: the value executeBidTrade returns, the committed order row, the
in-memory account, the history records and the buyData of the two
reconciliation invocations are all independent of whether the non-awaited
processAssetUpdate and updateAccountBalances succeed; and even when both
fail, a committed fill still reports success (ok) with both reconciliation
calls invoked and both failures left as unhandled rejections. -/
theorem executeBidTrade_reconciliation_not_awaited
    (dto : BidDto) (acct persisted : Account) (asset? : Option AssetQ)
    (order : OrderBookEntry) (db : Option Trade)
    (lockOk updateOk a1 b1 a2 b2 : Bool) :
    ((executeBidTrade dto acct persisted asset? order db lockOk updateOk a1 b1).outcome =
      (executeBidTrade dto acct persisted asset? order db lockOk updateOk a2 b2).outcome
    ∧ (executeBidTrade dto acct persisted asset? order db lockOk updateOk a1 b1).trade =
      (executeBidTrade dto acct persisted asset? order db lockOk updateOk a2 b2).trade
    ∧ (executeBidTrade dto acct persisted asset? order db lockOk updateOk a1 b1).account =
      (executeBidTrade dto acct persisted asset? order db lockOk updateOk a2 b2).account
    ∧ (executeBidTrade dto acct persisted asset? order db lockOk updateOk a1 b1).history =
      (executeBidTrade dto acct persisted asset? order db lockOk updateOk a2 b2).history
    ∧ (executeBidTrade dto acct persisted asset? order db lockOk updateOk a1 b1).assetCall =
      (executeBidTrade dto acct persisted asset? order db lockOk updateOk a2 b2).assetCall
    ∧ (executeBidTrade dto acct persisted asset? order db lockOk updateOk a1 b1).balanceCall =
      (executeBidTrade dto acct persisted asset? order db lockOk updateOk a2 b2).balanceCall)
    ∧ (∀ f, (executeBidTrade dto acct persisted asset? order db lockOk updateOk false false).balanceCall = some f →
        (executeBidTrade dto acct persisted asset? order db lockOk updateOk false false).assetCall = some f
        ∧ (∃ q, (executeBidTrade dto acct persisted asset? order db lockOk updateOk false false).outcome = .ok q)
        ∧ (executeBidTrade dto acct persisted asset? order db lockOk updateOk false false).unhandled =
            ["asset", "balance"]) := by
  constructor
  · unfold executeBidTrade
    cases lockOk
    · simp
    · cases db
      · simp [Txn.start]
      · rename_i t
        by_cases h1 : isMinimumQuantity t.quantity
        · simp [Txn.start, h1]
        · by_cases h2 : isMinimumQuantity (formatQuantity (if t.quantity ≥ order.ask_size then order.ask_size else t.quantity))
          · simp [Txn.start, h1, h2]
          · cases updateOk <;> simp [Txn.start, Txn.write, Txn.commit, h1, h2]
  · intro f hf
    unfold executeBidTrade at hf ⊢
    cases lockOk
    · simp [Txn.start] at hf
    · cases db
      · simp [Txn.start] at hf
      · rename_i t
        by_cases h1 : isMinimumQuantity t.quantity
        · simp [Txn.start, h1] at hf
        · by_cases h2 : isMinimumQuantity (formatQuantity (if t.quantity ≥ order.ask_size then order.ask_size else t.quantity))
          · simp [Txn.start, h1, h2] at hf
          · cases updateOk
            · simp [Txn.start, Txn.write, h1, h2] at hf
            · simp [Txn.start, Txn.write, Txn.commit, h1, h2] at hf ⊢
              subst hf
              simp

/-- Witness for C10: the concrete committed fill of C1 with both
reconciliation steps failing still returns ok, with both calls invoked and
two unhandled rejections. -/
theorem executeBidTrade_reconciliation_not_awaited_witness :
    (executeBidTrade ⟨1, 9500, 3, 1, "BTC"⟩ ⟨1000000, 1000000, 0, 0⟩ ⟨1000000, 1000000, 0, 0⟩ none
        ⟨9000, 1⟩ (some ⟨1, 9500, 3⟩) true true false false).balanceCall = some ⟨9000, 9000, 1⟩
    ∧ (executeBidTrade ⟨1, 9500, 3, 1, "BTC"⟩ ⟨1000000, 1000000, 0, 0⟩ ⟨1000000, 1000000, 0, 0⟩ none
        ⟨9000, 1⟩ (some ⟨1, 9500, 3⟩) true true false false).assetCall = some ⟨9000, 9000, 1⟩
    ∧ (∃ q, (executeBidTrade ⟨1, 9500, 3, 1, "BTC"⟩ ⟨1000000, 1000000, 0, 0⟩ ⟨1000000, 1000000, 0, 0⟩
        none ⟨9000, 1⟩ (some ⟨1, 9500, 3⟩) true true false false).outcome = .ok q)
    ∧ (executeBidTrade ⟨1, 9500, 3, 1, "BTC"⟩ ⟨1000000, 1000000, 0, 0⟩ ⟨1000000, 1000000, 0, 0⟩ none
        ⟨9000, 1⟩ (some ⟨1, 9500, 3⟩) true true false false).unhandled = ["asset", "balance"] := by
  have h : (executeBidTrade ⟨1, 9500, 3, 1, "BTC"⟩ ⟨1000000, 1000000, 0, 0⟩ ⟨1000000, 1000000, 0, 0⟩
      none ⟨9000, 1⟩ (some ⟨1, 9500, 3⟩) true true false false).balanceCall = some ⟨9000, 9000, 1⟩ := by
    norm_num [executeBidTrade, Txn.start, Txn.write, Txn.commit, formatQuantity, isMinimumQuantity]
  have hc := (executeBidTrade_reconciliation_not_awaited ⟨1, 9500, 3, 1, "BTC"⟩
    ⟨1000000, 1000000, 0, 0⟩ ⟨1000000, 1000000, 0, 0⟩ none ⟨9000, 1⟩ (some ⟨1, 9500, 3⟩)
    true true true true false false).2 ⟨9000, 9000, 1⟩ h
  exact ⟨h, hc.1, hc.2.1, hc.2.2⟩
